import Mathlib

/-!
# FlightTaskAuto: verification of the auto flight-task waypoint pipeline

Shallow embedding of `src/lib/FlightTasks/tasks/Auto/FlightTaskAuto.hpp`.
The repository ships only the class declaration (enums, member and method
declarations with doc comments); the method bodies are not part of the
sources, so each operation below is modelled from the specification's
component contracts, staying faithful to its words and to the header's
doc comments.  Floating-point scalars are embedded as `ℚ` (with `ℝ` used
only to state topological continuity); a possibly non-finite float field
is embedded as `Option ℚ` with `none` standing for a NaN/inf value.
-/

/-- 2-D vector in the local frame (XY components), as used by the track
state classifier. -/
def Vec2 : Type := ℚ × ℚ

/-- 3-D vector in the local frame, as `matrix::Vector3f` in the header. -/
def Vec3 : Type := ℚ × ℚ × ℚ

instance : DecidableEq Vec2 := fun a b => instDecidableEqProd a b
instance : DecidableEq Vec3 := fun a b => instDecidableEqProd a b

/-- Dot product of two 2-D vectors. -/
def dot2 (a b : Vec2) : ℚ := a.1 * b.1 + a.2 * b.2

/-- Difference of two 2-D vectors. -/
def sub2 (a b : Vec2) : Vec2 := (a.1 - b.1, a.2 - b.2)

/-- `a + t • u` for 2-D vectors: the point of the line through `a` with
direction `u` at parameter `t`. -/
def axpy2 (t : ℚ) (u a : Vec2) : Vec2 := (a.1 + t * u.1, a.2 + t * u.2)

/-- Squared distance between two 2-D points. -/
def distSq2 (a b : Vec2) : ℚ := dot2 (sub2 a b) (sub2 a b)

/-- Dot product of two 3-D vectors. -/
def dot3 (a b : Vec3) : ℚ := a.1 * b.1 + a.2.1 * b.2.1 + a.2.2 * b.2.2

/-- Difference of two 3-D vectors. -/
def sub3 (a b : Vec3) : Vec3 := (a.1 - b.1, a.2.1 - b.2.1, a.2.2 - b.2.2)

/-- `a + t • u` for 3-D vectors. -/
def axpy3 (t : ℚ) (u a : Vec3) : Vec3 :=
  (a.1 + t * u.1, a.2.1 + t * u.2.1, a.2.2 + t * u.2.2)

/-- Squared distance between two 3-D points. -/
def distSq3 (a b : Vec3) : ℚ := dot3 (sub3 a b) (sub3 a b)

/-- `WaypointType` enum of the header (FlightTaskAuto.hpp lines 53-62). -/
inductive WaypointType where
  | position
  | velocity
  | loiter
  | takeoff
  | land
  | idle
  | offboard
  | follow_target
deriving DecidableEq, Repr

/-- `State` enum of the header (FlightTaskAuto.hpp lines 64-69): the four
track states of the classifier. -/
inductive State where
  | offtrack
  | target_behind
  | previous_infront
  | none
deriving DecidableEq, Repr

/-- Signed scalar projection of `pos` onto the line through `prev` and
`target`: 0 at `prev`, 1 at `target` (spec 4.3).  By `ℚ` convention the
division yields 0 when `prev = target`. -/
def scalarProj (pos prev target : Vec2) : ℚ :=
  let u := sub2 target prev
  dot2 (sub2 pos prev) u / dot2 u u

/-- Closest point to `pos` on the infinite line through `prev` and
`target` (the header's `_closest_pt` member, a 2-D point). -/
def closestPtOnLine2 (prev target pos : Vec2) : Vec2 :=
  axpy2 (scalarProj pos prev target) (sub2 target prev) prev

/-- Squared cross-track distance: squared perpendicular distance from the
vehicle position to the track line (spec glossary). -/
def crossTrackDistSq (pos prev target : Vec2) : ℚ :=
  distSq2 pos (closestPtOnLine2 prev target pos)

/-- Modelled from the spec: `_getCurrentState` (FlightTaskAuto.hpp line
129; body not in the sources).  Spec 4.3: project the vehicle position
onto the infinite line through `prev`→`target`, compute the signed scalar
projection `t` (0 at `prev`, 1 at `target`) and the cross-track distance
`d`; return `offtrack` if `d` exceeds the threshold (priority first),
else `previous_infront` if `t < 0`, else `target_behind` if `t > 1`,
else `none`.  A zero-length segment is treated as `none` (spec 7,
degenerate geometry).  Distances are compared squared, which for a
nonnegative threshold agrees with comparing `d` to the threshold. -/
def _getCurrentState (pos prev target : Vec2) (threshold : ℚ) : State :=
  if dot2 (sub2 target prev) (sub2 target prev) = 0 then State.none
  else
    let t := scalarProj pos prev target
    if crossTrackDistSq pos prev target > threshold ^ 2 then State.offtrack
    else if t < 0 then State.previous_infront
    else if t > 1 then State.target_behind
    else State.none

/-- Tunable parameters of the task (header lines 101-106): default cruise
speed `MPC_XY_CRUISE`, corner speed `MPC_CRUISE_90`, acceptance radius
`NAV_ACC_RAD`, yaw mode `MPC_YAW_MODE`. -/
structure TrackingParameters where
  MPC_XY_CRUISE : ℚ
  MPC_CRUISE_90 : ℚ
  NAV_ACC_RAD : ℚ
  MPC_YAW_MODE : ℤ
deriving DecidableEq, Repr

/-- Full-pipeline track state: the classifier run with the offtrack
threshold fixed by the parameters.  Modelled from the spec: the header's
doc comment for `State::offtrack` (line 65) reads "Vehicle is more than
cruise speed away from track", and `_getMaxCruiseSpeed` (line 83) is the
getter for the default cruise speed `MPC_XY_CRUISE`, so the distance
threshold is the value of `MPC_XY_CRUISE`. -/
def trackStateWithParams (params : TrackingParameters) (pos prev target : Vec2) : State :=
  _getCurrentState pos prev target params.MPC_XY_CRUISE

/-- Modelled from the spec: `_getVelocityFromAngle` (header line 128; body
not in the sources).  Spec 4.5: maps a turn angle of 0 degrees to the
default cruise speed and 90 degrees and beyond to the 90-degree corner
speed, with a continuous piecewise-linear interpolation in between (the
spec leaves the exact monotonic curve as a documented implementation
choice; linear clamping is used here).  Stated generically so the same
formula is used over `ℚ` (executable) and over `ℝ` (for continuity). -/
def _getVelocityFromAngle {α : Type} [LinearOrderedField α]
    (defaultCruise cornerSpeed90 angle : α) : α :=
  defaultCruise + (cornerSpeed90 - defaultCruise) * (min (max angle 0) 90) / 90

/-- Modelled from the spec: the turn angle (in degrees) fed to the speed
interpolation, between segment prev→target and segment target→next
(spec 4.5).  The trigonometric evaluation on non-degenerate segments is
external to this rational embedding and passed in as `rawAngle`; the
wrapper fixes the degenerate cases: a zero-length segment yields a turn
angle of 0 degrees (spec 7: degenerate geometry must map to
`defaultCruise`, i.e. the 0-degree end of the profile). -/
def segmentTurnAngle (prev target next : Vec3) (rawAngle : ℚ) : ℚ :=
  if prev = target ∨ next = target then 0 else rawAngle

/-- Fly-through waypoint types: at these the vehicle does not stop at the
target even when no further leg exists (spec 4.5 names loiter and idle). -/
def isFlyThrough (t : WaypointType) : Bool :=
  match t with
  | WaypointType.loiter => true
  | WaypointType.idle => true
  | _ => false

/-- Modelled from the spec: the `_speed_at_target` computation (header
line 99; body not in the sources).  Spec 4.5: an explicit valid per-leg
speed override on the current leg takes precedence over the computed
value; otherwise, if `next` equals `target` (no further leg) the speed is
0 (stop at target) unless the current waypoint type is a fly-through type,
in which case the default cruise speed is used; otherwise the speed is the
angle interpolation applied to the turn angle between the two segments. -/
def computeSpeedAtTarget (defaultCruise cornerSpeed90 : ℚ) (typ : WaypointType)
    (speedOverride : Option ℚ) (prev target next : Vec3) (rawAngle : ℚ) : ℚ :=
  match speedOverride with
  | some v => v
  | Option.none =>
    if next = target then
      (if isFlyThrough typ then defaultCruise else 0)
    else
      _getVelocityFromAngle defaultCruise cornerSpeed90
        (segmentTurnAngle prev target next rawAngle)

/-- One leg of the global waypoint triplet (`position_setpoint_s`
snapshot): geodetic position, validity flag, waypoint type, optional
cruising-speed override.  A geodetic float field is `Option ℚ`, with
`none` embedding a non-finite (NaN/inf) value. -/
structure GlobalLeg where
  valid : Bool
  lat : Option ℚ
  lon : Option ℚ
  alt : Option ℚ
  typ : WaypointType
  speedOverride : Option ℚ
deriving DecidableEq

/-- The three-leg global waypoint triplet delivered by the navigator. -/
structure Triplet where
  previous : GlobalLeg
  current : GlobalLeg
  next : GlobalLeg
deriving DecidableEq

/-- `_isFinite` (header line 126): all geodetic fields of the setpoint are
finite, i.e. none of them is the embedded non-finite value. -/
def _isFinite (sp : GlobalLeg) : Bool :=
  sp.lat.isSome && sp.lon.isSome && sp.alt.isSome

/-- The local waypoint quadruple owned by the task (header lines 89-94):
pre-previous, previous, target and next waypoints in the local frame,
plus the waypoint type carried from the current leg. -/
structure LocalWaypointSet where
  prevPrev : Vec3
  prev : Vec3
  target : Vec3
  next : Vec3
  typ : WaypointType
deriving DecidableEq

/-- Project one geodetic leg to the local frame with the external
projection service `proj` (spec 4.1: `toLocal` is a collaborator, not
reimplemented here); falls back to `dflt` when a field is non-finite. -/
def projLeg (proj : ℚ → ℚ → ℚ → Vec3) (l : GlobalLeg) (dflt : Vec3) : Vec3 :=
  match l.lat, l.lon, l.alt with
  | some la, some lo, some al => proj la lo al
  | _, _, _ => dflt

/-- Modelled from the spec: `_evaluateTriplets` (header line 125; body not
in the sources).  Spec 4.2: fails (`ok = false`) iff the reference frame
is invalid, or the current leg is invalid, or the current leg contains a
non-finite geodetic field; on failure the task holds position, producing
the vehicle's current position as target (spec 7) rather than a
non-finite setpoint.  On success: `target` is the projected current leg;
`prev` is the projected previous leg, or the vehicle position when the
previous leg is invalid or non-finite; `next` is the projected next leg,
or `target` when the next leg is invalid or non-finite; the waypoint type
is carried unchanged from the current leg. -/
def _evaluateTriplets (proj : ℚ → ℚ → ℚ → Vec3) (refValid : Bool)
    (trip : Triplet) (vehiclePos : Vec3) : LocalWaypointSet × Bool :=
  if refValid && trip.current.valid && _isFinite trip.current then
    let tgt := projLeg proj trip.current vehiclePos
    let prv := if trip.previous.valid && _isFinite trip.previous then
                 projLeg proj trip.previous vehiclePos
               else vehiclePos
    let nxt := if trip.next.valid && _isFinite trip.next then
                 projLeg proj trip.next tgt
               else tgt
    (⟨prv, prv, tgt, nxt, trip.current.typ⟩, true)
  else
    (⟨vehiclePos, vehiclePos, vehiclePos, vehiclePos, WaypointType.position⟩, false)

/-- Parameter of the closest point to `p` on the line through `a` with
direction `u = b - a` (same scalar projection as the classifier, in 3-D). -/
def lineParam3 (a b p : Vec3) : ℚ :=
  let u := sub3 b a
  dot3 (sub3 p a) u / dot3 u u

/-- Closest point to `p` on the infinite line through `a` and `b`; when
the two points coincide the line degenerates to the point `b`. -/
def closestPtOnLine3 (a b p : Vec3) : Vec3 :=
  let u := sub3 b a
  if dot3 u u = 0 then b
  else axpy3 (lineParam3 a b p) u a

/-- Closest point to `p` on the segment from `a` to `b`: the line
parameter clamped to `[0, 1]`; when the segment is degenerate the result
is `b` (spec 4.4: "or with `target` if degenerate"). -/
def closestPtOnSegment3 (a b p : Vec3) : Vec3 :=
  let u := sub3 b a
  if dot3 u u = 0 then b
  else axpy3 (min (max (lineParam3 a b p) 0) 1) u a

/-- Modelled from the spec: `_updateInternalWaypoints` (header line 85;
body not in the sources).  Spec 4.4, by track state: `none` passes the
raw waypoints through unchanged; `previous_infront` substitutes `prev`
with the vehicle's current local position; `target_behind` substitutes
`prev` with the closest point on the segment prev→target to the vehicle
(`target` if degenerate); `offtrack` substitutes `prev` with the closest
point on the line prev→target to the vehicle position. -/
def _updateInternalWaypoints (state : State) (w : LocalWaypointSet) (pos : Vec3) :
    LocalWaypointSet :=
  match state with
  | State.none => w
  | State.previous_infront => { w with prev := pos }
  | State.target_behind => { w with prev := closestPtOnSegment3 w.prev w.target pos }
  | State.offtrack => { w with prev := closestPtOnLine3 w.prev w.target pos }

/-- `YawLockState` (spec data model): a cached heading and a boolean lock
flag (`_yaw_lock`, header line 110). -/
structure YawLockState where
  locked : Bool
  heading : ℚ
deriving DecidableEq, Repr

/-- Modelled from the spec: the per-tick yaw lock update (the `_yaw_lock`
member, header line 110; no method body is in the sources).  Spec 4.6 and
data model: receiving a new, materially different triplet clears the
lock (`newTriplet`); otherwise, entering the acceptance radius of the
target sets `locked := true` with the heading cached at lock time, and a
held lock keeps its cached heading.  Being within the acceptance radius
is the squared-distance comparison `distSq2 pos target ≤ accRad ^ 2`,
which for a nonnegative radius agrees with the distance comparison. -/
def yawLockUpdate (st : YawLockState) (newTriplet : Bool) (pos target : Vec2)
    (accRad currentHeading : ℚ) : YawLockState :=
  if newTriplet then { st with locked := false }
  else if st.locked = false ∧ distSq2 pos target ≤ accRad ^ 2 then
    { locked := true, heading := currentHeading }
  else st

/-! ## Helper lemmas -/

lemma dot2_self_eq_zero_iff (u : Vec2) : dot2 u u = 0 ↔ u.1 = 0 ∧ u.2 = 0 := by
  unfold dot2
  constructor
  · intro h
    constructor
    · nlinarith [mul_self_nonneg u.1, mul_self_nonneg u.2]
    · nlinarith [mul_self_nonneg u.1, mul_self_nonneg u.2]
  · rintro ⟨h1, h2⟩
    rw [h1, h2]
    ring

lemma seg2_nondegenerate (prev target : Vec2) (h : prev ≠ target) :
    dot2 (sub2 target prev) (sub2 target prev) ≠ 0 := by
  intro hz
  rcases (dot2_self_eq_zero_iff (sub2 target prev)).1 hz with ⟨h1, h2⟩
  apply h
  have e1 : target.1 = prev.1 := by
    have := h1
    unfold sub2 at this
    simpa [sub_eq_zero] using this
  have e2 : target.2 = prev.2 := by
    have := h2
    unfold sub2 at this
    simpa [sub_eq_zero] using this
  exact Prod.ext e1.symm e2.symm

/-- Complete characterization of the classifier on a non-degenerate
segment, shared by the claims about the track state. -/
lemma getCurrentState_spec (pos prev target : Vec2) (thr : ℚ)
    (hden : dot2 (sub2 target prev) (sub2 target prev) ≠ 0) :
    (_getCurrentState pos prev target thr = State.offtrack ↔
       crossTrackDistSq pos prev target > thr ^ 2)
    ∧ (_getCurrentState pos prev target thr = State.previous_infront ↔
       crossTrackDistSq pos prev target ≤ thr ^ 2 ∧ scalarProj pos prev target < 0)
    ∧ (_getCurrentState pos prev target thr = State.target_behind ↔
       crossTrackDistSq pos prev target ≤ thr ^ 2 ∧ 1 < scalarProj pos prev target)
    ∧ (_getCurrentState pos prev target thr = State.none ↔
       crossTrackDistSq pos prev target ≤ thr ^ 2 ∧ 0 ≤ scalarProj pos prev target
         ∧ scalarProj pos prev target ≤ 1) := by
  unfold _getCurrentState
  rw [if_neg hden]
  by_cases h1 : crossTrackDistSq pos prev target > thr ^ 2
  · rw [if_pos h1]
    refine ⟨iff_of_true rfl h1, ?_, ?_, ?_⟩ <;>
      refine iff_of_false (by simp) ?_ <;> rintro ⟨hle, -⟩ <;> linarith
  · rw [if_neg h1]
    have hle : crossTrackDistSq pos prev target ≤ thr ^ 2 := not_lt.1 h1
    by_cases h2 : scalarProj pos prev target < 0
    · rw [if_pos h2]
      refine ⟨iff_of_false (by simp) (by simpa using h1), iff_of_true rfl ⟨hle, h2⟩,
        iff_of_false (by simp) ?_, iff_of_false (by simp) ?_⟩
      · rintro ⟨-, ht⟩; linarith
      · rintro ⟨-, ht, -⟩; linarith
    · rw [if_neg h2]
      have h2le : 0 ≤ scalarProj pos prev target := not_lt.1 h2
      by_cases h3 : 1 < scalarProj pos prev target
      · rw [if_pos h3]
        refine ⟨iff_of_false (by simp) (by simpa using h1), iff_of_false (by simp) ?_,
          iff_of_true rfl ⟨hle, h3⟩, iff_of_false (by simp) ?_⟩
        · rintro ⟨-, ht⟩; linarith
        · rintro ⟨-, -, ht⟩; linarith
      · rw [if_neg h3]
        refine ⟨iff_of_false (by simp) (by simpa using h1), iff_of_false (by simp) ?_,
          iff_of_false (by simp) ?_, iff_of_true rfl ⟨hle, h2le, not_lt.1 h3⟩⟩
        · rintro ⟨-, ht⟩; linarith
        · rintro ⟨-, ht⟩; linarith

/-- C1: for every vehicle XY position, previous waypoint XY and target
waypoint XY (with a non-degenerate segment, where the projection `t` and
cross-track distance `d` are defined), the classifier returns exactly one
of the four states, determined by `t` (0 at prev, 1 at target) and `d`
with priority offtrack, then previousInfront, then targetBehind, then
none: offtrack iff `d` exceeds the threshold, else previousInfront iff
`t < 0`, else targetBehind iff `t > 1`, else none (distances compared
squared). -/
theorem trackState_classification (pos prev target : Vec2) (thr : ℚ)
    (h : prev ≠ target) :
    (_getCurrentState pos prev target thr = State.offtrack ↔
       crossTrackDistSq pos prev target > thr ^ 2)
    ∧ (_getCurrentState pos prev target thr = State.previous_infront ↔
       crossTrackDistSq pos prev target ≤ thr ^ 2 ∧ scalarProj pos prev target < 0)
    ∧ (_getCurrentState pos prev target thr = State.target_behind ↔
       crossTrackDistSq pos prev target ≤ thr ^ 2 ∧ 1 < scalarProj pos prev target)
    ∧ (_getCurrentState pos prev target thr = State.none ↔
       crossTrackDistSq pos prev target ≤ thr ^ 2 ∧ 0 ≤ scalarProj pos prev target
         ∧ scalarProj pos prev target ≤ 1) :=
  getCurrentState_spec pos prev target thr (seg2_nondegenerate prev target h)

/-- Witness for C1 at a concrete input: prev `(0,0)`, target `(10,0)`,
vehicle `(3,1)`, threshold 3; the classifier reports `none` and the
characterization applies. -/
theorem trackState_classification_witness :
    ((0, 0) : Vec2) ≠ (10, 0) ∧
      (_getCurrentState (3, 1) (0, 0) (10, 0) 3 = State.none ↔
        crossTrackDistSq (3, 1) (0, 0) (10, 0) ≤ 3 ^ 2 ∧
          0 ≤ scalarProj (3, 1) (0, 0) (10, 0) ∧ scalarProj (3, 1) (0, 0) (10, 0) ≤ 1) := by
  have h : ((0, 0) : Vec2) ≠ (10, 0) := by
    intro hx
    have := congrArg Prod.fst hx
    norm_num at this
  exact ⟨h, (trackState_classification (3, 1) (0, 0) (10, 0) 3 h).2.2.2⟩

/-- C10: the offtrack distance threshold of the full-pipeline classifier
is exactly the configured default cruise speed: for every vehicle
position, previous and target waypoint (non-degenerate segment) and every
nonnegative `MPC_XY_CRUISE`, the state is offtrack precisely when the
squared cross-track distance exceeds the squared value of `MPC_XY_CRUISE`
interpreted as a distance. -/
theorem offtrack_threshold_is_default_cruise (params : TrackingParameters)
    (pos prev target : Vec2) (h : prev ≠ target) :
    trackStateWithParams params pos prev target = State.offtrack ↔
      crossTrackDistSq pos prev target > params.MPC_XY_CRUISE ^ 2 :=
  (getCurrentState_spec pos prev target params.MPC_XY_CRUISE
    (seg2_nondegenerate prev target h)).1

/-- Witness for C10 at a concrete input: cruise speed 3, vehicle 5 off a
10-long track; the pipeline classifier reports offtrack. -/
theorem offtrack_threshold_is_default_cruise_witness :
    ((0, 0) : Vec2) ≠ (10, 0) ∧
      (trackStateWithParams ⟨3, 1, 2, 0⟩ (0, 5) (0, 0) (10, 0) = State.offtrack ↔
        crossTrackDistSq (0, 5) (0, 0) (10, 0) > (3 : ℚ) ^ 2) := by
  have h : ((0, 0) : Vec2) ≠ (10, 0) := by
    intro hx
    have := congrArg Prod.fst hx
    norm_num at this
  exact ⟨h, offtrack_threshold_is_default_cruise ⟨3, 1, 2, 0⟩ (0, 5) (0, 0) (10, 0) h⟩

/-- C2: triplet evaluation returns `ok = false` iff the reference frame is
invalid, the current leg is invalid, or the current leg has a non-finite
geodetic field; in that case the produced target is the vehicle's current
position (hold position) rather than a non-finite setpoint. -/
theorem evaluateTriplets_failure_spec (proj : ℚ → ℚ → ℚ → Vec3) (refValid : Bool)
    (trip : Triplet) (vehiclePos : Vec3) :
    ((_evaluateTriplets proj refValid trip vehiclePos).2 = false ↔
       refValid = false ∨ trip.current.valid = false ∨ _isFinite trip.current = false)
    ∧ ((_evaluateTriplets proj refValid trip vehiclePos).2 = false →
       (_evaluateTriplets proj refValid trip vehiclePos).1.target = vehiclePos) := by
  unfold _evaluateTriplets
  by_cases hc : refValid && trip.current.valid && _isFinite trip.current
  · rw [if_pos hc]
    simp only [Bool.and_eq_true] at hc
    refine ⟨⟨fun h => by simp at h, ?_⟩, fun h => by simp at h⟩
    rintro (h | h | h) <;> simp_all
  · rw [if_neg hc]
    simp only [Bool.and_eq_true, not_and_or, Bool.not_eq_true] at hc
    refine ⟨⟨fun _ => ?_, fun _ => rfl⟩, fun _ => rfl⟩
    tauto

theorem evaluateTriplets_failure_spec_witness :
    (_evaluateTriplets (fun la lo al => (la, lo, al)) true
       ⟨⟨true, some 1, some 2, some 3, WaypointType.position, Option.none⟩,
        ⟨false, some 4, some 5, some 6, WaypointType.position, Option.none⟩,
        ⟨true, some 7, some 8, some 9, WaypointType.position, Option.none⟩⟩
       (1, 2, 3)).2 = false ∧
    (_evaluateTriplets (fun la lo al => (la, lo, al)) true
       ⟨⟨true, some 1, some 2, some 3, WaypointType.position, Option.none⟩,
        ⟨false, some 4, some 5, some 6, WaypointType.position, Option.none⟩,
        ⟨true, some 7, some 8, some 9, WaypointType.position, Option.none⟩⟩
       (1, 2, 3)).1.target = (1, 2, 3) := by
  have h := evaluateTriplets_failure_spec (fun la lo al => (la, lo, al)) true
    ⟨⟨true, some 1, some 2, some 3, WaypointType.position, Option.none⟩,
     ⟨false, some 4, some 5, some 6, WaypointType.position, Option.none⟩,
     ⟨true, some 7, some 8, some 9, WaypointType.position, Option.none⟩⟩ (1, 2, 3)
  have hfail := h.1.mpr (Or.inr (Or.inl rfl))
  exact ⟨hfail, h.2 hfail⟩

/-- C5: when the current leg is valid and finite but the previous leg is
invalid (or has a non-finite field), the evaluated local prev waypoint is
the vehicle's current local position. -/
theorem invalid_previous_leg_substitution (proj : ℚ → ℚ → ℚ → Vec3) (refValid : Bool)
    (trip : Triplet) (vehiclePos : Vec3) (href : refValid = true)
    (hcv : trip.current.valid = true) (hcf : _isFinite trip.current = true)
    (hprev : trip.previous.valid = false ∨ _isFinite trip.previous = false) :
    (_evaluateTriplets proj refValid trip vehiclePos).1.prev = vehiclePos := by
  unfold _evaluateTriplets
  rw [if_pos (by simp [href, hcv, hcf])]
  rcases hprev with h | h <;> simp [h]

/-- C6: when the current leg is valid and finite but the next leg is
invalid (or has a non-finite field), the evaluated local next waypoint
equals the evaluated local target waypoint. -/
theorem invalid_next_leg_substitution (proj : ℚ → ℚ → ℚ → Vec3) (refValid : Bool)
    (trip : Triplet) (vehiclePos : Vec3) (href : refValid = true)
    (hcv : trip.current.valid = true) (hcf : _isFinite trip.current = true)
    (hnext : trip.next.valid = false ∨ _isFinite trip.next = false) :
    (_evaluateTriplets proj refValid trip vehiclePos).1.next =
      (_evaluateTriplets proj refValid trip vehiclePos).1.target := by
  unfold _evaluateTriplets
  rw [if_pos (by simp [href, hcv, hcf])]
  rcases hnext with h | h <;> simp [h]

theorem invalid_previous_leg_substitution_witness :
    (_evaluateTriplets (fun la lo al => (la, lo, al)) true
       ⟨⟨true, Option.none, some 2, some 3, WaypointType.position, Option.none⟩,
        ⟨true, some 4, some 5, some 6, WaypointType.position, Option.none⟩,
        ⟨true, some 7, some 8, some 9, WaypointType.position, Option.none⟩⟩
       (1, 2, 3)).1.prev = (1, 2, 3) :=
  invalid_previous_leg_substitution (fun la lo al => (la, lo, al)) true
    ⟨⟨true, Option.none, some 2, some 3, WaypointType.position, Option.none⟩,
     ⟨true, some 4, some 5, some 6, WaypointType.position, Option.none⟩,
     ⟨true, some 7, some 8, some 9, WaypointType.position, Option.none⟩⟩
    (1, 2, 3) rfl rfl rfl (Or.inr rfl)

theorem invalid_next_leg_substitution_witness :
    (_evaluateTriplets (fun la lo al => (la, lo, al)) true
       ⟨⟨true, some 1, some 2, some 3, WaypointType.position, Option.none⟩,
        ⟨true, some 4, some 5, some 6, WaypointType.position, Option.none⟩,
        ⟨false, some 7, some 8, some 9, WaypointType.position, Option.none⟩⟩
       (1, 2, 3)).1.next =
    (_evaluateTriplets (fun la lo al => (la, lo, al)) true
       ⟨⟨true, some 1, some 2, some 3, WaypointType.position, Option.none⟩,
        ⟨true, some 4, some 5, some 6, WaypointType.position, Option.none⟩,
        ⟨false, some 7, some 8, some 9, WaypointType.position, Option.none⟩⟩
       (1, 2, 3)).1.target :=
  invalid_next_leg_substitution (fun la lo al => (la, lo, al)) true
    ⟨⟨true, some 1, some 2, some 3, WaypointType.position, Option.none⟩,
     ⟨true, some 4, some 5, some 6, WaypointType.position, Option.none⟩,
     ⟨false, some 7, some 8, some 9, WaypointType.position, Option.none⟩⟩
    (1, 2, 3) rfl rfl rfl (Or.inl rfl)

/-- C4: the cruise speed profile equals `defaultCruise` at a turn angle
of 0 degrees, equals `cornerSpeed90` at 90 degrees and beyond, is
monotonically non-increasing in the angle whenever the corner speed does
not exceed the default cruise speed, and (over the reals) is continuous
at the 0-degree and 90-degree boundary values. -/
theorem cruise_speed_profile_spec :
    (∀ dc cs : ℚ, _getVelocityFromAngle dc cs 0 = dc)
    ∧ (∀ dc cs a : ℚ, 90 ≤ a → _getVelocityFromAngle dc cs a = cs)
    ∧ (∀ dc cs a b : ℚ, cs ≤ dc → a ≤ b →
         _getVelocityFromAngle dc cs b ≤ _getVelocityFromAngle dc cs a)
    ∧ (∀ dc cs : ℝ, ContinuousAt (_getVelocityFromAngle dc cs) 0
         ∧ ContinuousAt (_getVelocityFromAngle dc cs) 90) := by
  refine ⟨?_, ?_, ?_, ?_⟩
  · intro dc cs
    simp [_getVelocityFromAngle]
  · intro dc cs a h
    have h0 : (0 : ℚ) ≤ a := by linarith
    rw [_getVelocityFromAngle, max_eq_left h0, min_eq_right h]
    field_simp
  · intro dc cs a b hcs hab
    have hm : min (max a 0) 90 ≤ min (max b 0) 90 :=
      min_le_min (max_le_max hab le_rfl) le_rfl
    rw [_getVelocityFromAngle, _getVelocityFromAngle]
    have hmul := mul_le_mul_of_nonpos_left hm (by linarith : cs - dc ≤ 0)
    have hdiv : (cs - dc) * min (max b 0) 90 / 90 ≤ (cs - dc) * min (max a 0) 90 / 90 :=
      div_le_div_of_nonneg_right hmul (by norm_num)
    linarith
  · intro dc cs
    have hcont : Continuous (fun a : ℝ => _getVelocityFromAngle dc cs a) := by
      unfold _getVelocityFromAngle
      exact continuous_const.add
        ((continuous_const.mul ((continuous_id.max continuous_const).min
          continuous_const)).div_const 90)
    exact ⟨hcont.continuousAt, hcont.continuousAt⟩

/-- Witness for C4 at concrete values: default cruise 10, corner speed 3;
the profile hits the corner speed at 90 degrees and does not increase
from 30 to 60 degrees. -/
theorem cruise_speed_profile_spec_witness :
    _getVelocityFromAngle (10 : ℚ) 3 90 = 3 ∧
      _getVelocityFromAngle (10 : ℚ) 3 60 ≤ _getVelocityFromAngle (10 : ℚ) 3 30 := by
  constructor
  · exact cruise_speed_profile_spec.2.1 10 3 90 (by norm_num)
  · exact cruise_speed_profile_spec.2.2.1 10 3 30 60 (by norm_num) (by norm_num)

/-- C7: under degenerate geometry the pipeline stays safe: a classifier
run with coincident previous and target waypoints returns `none`
(whatever the vehicle position and threshold), and a zero-length
prev→target segment makes the angle-driven cruise speed profile return
`defaultCruise` (the degenerate turn angle is treated as 0 degrees); both
computations are guarded total functions, so no division by zero occurs
in the embedding. -/
theorem degenerate_geometry_safe :
    (∀ (pos prev : Vec2) (thr : ℚ), _getCurrentState pos prev prev thr = State.none)
    ∧ (∀ (dc cs : ℚ) (typ : WaypointType) (prev next : Vec3) (rawAngle : ℚ),
         next ≠ prev →
         computeSpeedAtTarget dc cs typ Option.none prev prev next rawAngle = dc) := by
  constructor
  · intro pos prev thr
    have hz : dot2 (sub2 prev prev) (sub2 prev prev) = 0 := by
      simp [dot2, sub2]
    unfold _getCurrentState
    rw [if_pos hz]
  · intro dc cs typ prev next rawAngle h
    unfold computeSpeedAtTarget
    rw [if_neg h]
    have hang : segmentTurnAngle prev prev next rawAngle = 0 := by
      unfold segmentTurnAngle
      rw [if_pos (Or.inl rfl)]
    rw [hang]
    simp [_getVelocityFromAngle]

/-- Witness for C7 at a concrete input: coincident prev/target `(2,2)`
with the vehicle far away still classifies as `none`, and the speed
profile on the zero-length segment returns the default cruise 10. -/
theorem degenerate_geometry_safe_witness :
    _getCurrentState (7, 9) (2, 2) (2, 2) 3 = State.none ∧
      computeSpeedAtTarget 10 3 WaypointType.position Option.none
        (0, 0, 0) (0, 0, 0) (5, 0, 0) 45 = 10 := by
  constructor
  · exact degenerate_geometry_safe.1 (7, 9) (2, 2) 3
  · refine degenerate_geometry_safe.2 10 3 WaypointType.position (0, 0, 0) (5, 0, 0) 45 ?_
    intro hx
    have := congrArg Prod.fst hx
    norm_num at this

/-- C8: when `next` equals `target` and there is no speed override, the
computed speed at target is 0 unless the current waypoint type is a
fly-through type (loiter or idle), in which case it is the default
cruise speed; and an explicit valid speed override on the current leg is
the resulting speed regardless of the computed value. -/
theorem speed_at_target_spec :
    (∀ (dc cs : ℚ) (typ : WaypointType) (prev target : Vec3) (rawAngle : ℚ),
       computeSpeedAtTarget dc cs typ Option.none prev target target rawAngle =
         if typ = WaypointType.loiter ∨ typ = WaypointType.idle then dc else 0)
    ∧ (∀ (dc cs : ℚ) (typ : WaypointType) (v : ℚ) (prev target next : Vec3)
         (rawAngle : ℚ),
       computeSpeedAtTarget dc cs typ (some v) prev target next rawAngle = v) := by
  constructor
  · intro dc cs typ prev target rawAngle
    unfold computeSpeedAtTarget
    rw [if_pos rfl]
    cases typ <;> simp [isFlyThrough]
  · intro dc cs typ v prev target next rawAngle
    rfl

/-- C9: across ticks the yaw lock state satisfies: receiving a new,
materially different triplet clears the lock flag; from the unlocked
state (and no new triplet) the flag becomes true exactly when the vehicle
is within the acceptance radius of the target, and the heading is cached
at lock time; and while the lock is held (no new triplet) the state —
in particular the cached heading — is not modified. -/
theorem yaw_lock_spec (st : YawLockState) (pos target : Vec2)
    (accRad currentHeading : ℚ) :
    ((yawLockUpdate st true pos target accRad currentHeading).locked = false)
    ∧ (st.locked = false →
        ((yawLockUpdate st false pos target accRad currentHeading).locked = true ↔
          distSq2 pos target ≤ accRad ^ 2))
    ∧ (st.locked = false → distSq2 pos target ≤ accRad ^ 2 →
        (yawLockUpdate st false pos target accRad currentHeading).heading =
          currentHeading)
    ∧ (st.locked = true →
        yawLockUpdate st false pos target accRad currentHeading = st) := by
  refine ⟨rfl, ?_, ?_, ?_⟩
  · intro hunlocked
    unfold yawLockUpdate
    rw [if_neg (by simp)]
    by_cases hin : distSq2 pos target ≤ accRad ^ 2
    · rw [if_pos ⟨hunlocked, hin⟩]
      simp [hin]
    · rw [if_neg (by tauto)]
      simp [hunlocked, hin]
  · intro hunlocked hin
    unfold yawLockUpdate
    rw [if_neg (by simp), if_pos ⟨hunlocked, hin⟩]
  · intro hlocked
    unfold yawLockUpdate
    rw [if_neg (by simp), if_neg (by simp [hlocked])]

/-- Witness for C9 at a concrete input: an unlocked state, vehicle at
distance 1 from the target with acceptance radius 2, heading 7/2; the
update locks and caches the heading; and a held lock survives a tick
unchanged. -/
theorem yaw_lock_spec_witness :
    ((yawLockUpdate ⟨false, 0⟩ false (0, 1) (0, 0) 2 (7/2)).locked = true ↔
       distSq2 (0, 1) (0, 0) ≤ (2 : ℚ) ^ 2)
    ∧ (yawLockUpdate ⟨false, 0⟩ false (0, 1) (0, 0) 2 (7/2)).heading = 7/2
    ∧ yawLockUpdate ⟨true, 5⟩ false (3, 3) (0, 0) 2 (7/2) = ⟨true, 5⟩ := by
  have hin : distSq2 ((0 : ℚ), (1 : ℚ)) (0, 0) ≤ (2 : ℚ) ^ 2 := by
    norm_num [distSq2, dot2, sub2]
  exact ⟨(yaw_lock_spec ⟨false, 0⟩ (0, 1) (0, 0) 2 (7/2)).2.1 rfl,
    (yaw_lock_spec ⟨false, 0⟩ (0, 1) (0, 0) 2 (7/2)).2.2.1 rfl hin,
    (yaw_lock_spec ⟨true, 5⟩ (3, 3) (0, 0) 2 (7/2)).2.2.2 rfl⟩

lemma dot3_self_nonneg (u : Vec3) : 0 ≤ dot3 u u := by
  unfold dot3
  nlinarith [mul_self_nonneg u.1, mul_self_nonneg u.2.1, mul_self_nonneg u.2.2]

lemma eq_of_dot3_sub_eq_zero (a b : Vec3) (hz : dot3 (sub3 b a) (sub3 b a) = 0) :
    b = a := by
  unfold dot3 sub3 at hz
  dsimp only at hz
  have h1 : (b.1 - a.1) * (b.1 - a.1) = 0 := by
    nlinarith [mul_self_nonneg (b.1 - a.1), mul_self_nonneg (b.2.1 - a.2.1),
      mul_self_nonneg (b.2.2 - a.2.2)]
  have h2 : (b.2.1 - a.2.1) * (b.2.1 - a.2.1) = 0 := by
    nlinarith [mul_self_nonneg (b.1 - a.1), mul_self_nonneg (b.2.1 - a.2.1),
      mul_self_nonneg (b.2.2 - a.2.2)]
  have h3 : (b.2.2 - a.2.2) * (b.2.2 - a.2.2) = 0 := by
    nlinarith [mul_self_nonneg (b.1 - a.1), mul_self_nonneg (b.2.1 - a.2.1),
      mul_self_nonneg (b.2.2 - a.2.2)]
  have e1 : b.1 = a.1 := by have := mul_self_eq_zero.mp h1; linarith
  have e2 : b.2.1 = a.2.1 := by have := mul_self_eq_zero.mp h2; linarith
  have e3 : b.2.2 = a.2.2 := by have := mul_self_eq_zero.mp h3; linarith
  exact Prod.ext e1 (Prod.ext e2 e3)

lemma axpy3_zero_dir (s : ℚ) (a : Vec3) : axpy3 s (sub3 a a) a = a := by
  unfold axpy3 sub3
  refine Prod.ext ?_ (Prod.ext ?_ ?_) <;> dsimp only <;> ring

/-- Key quadratic identity: for any `t0` satisfying the normal equation
of the projection, the squared distance from `p` to the point `a + s • u`
of the line decomposes as the squared distance to `a + t0 • u` plus a
square term in `s`. -/
lemma distSq3_axpy_identity (a u p : Vec3) (s t0 : ℚ)
    (hproj : dot3 (sub3 p a) u = t0 * dot3 u u) :
    distSq3 p (axpy3 s u a) = distSq3 p (axpy3 t0 u a) + (s - t0) ^ 2 * dot3 u u := by
  unfold dot3 sub3 at hproj
  dsimp only at hproj
  unfold distSq3 dot3 sub3 axpy3
  dsimp only
  linear_combination (2 * (t0 - s)) * hproj

lemma lineParam3_proj (a b p : Vec3) (hz : dot3 (sub3 b a) (sub3 b a) ≠ 0) :
    dot3 (sub3 p a) (sub3 b a) = lineParam3 a b p * dot3 (sub3 b a) (sub3 b a) := by
  unfold lineParam3
  rw [div_mul_cancel₀ _ hz]

lemma closestPtOnLine3_min (a b p : Vec3) (s : ℚ) :
    distSq3 p (closestPtOnLine3 a b p) ≤ distSq3 p (axpy3 s (sub3 b a) a) := by
  unfold closestPtOnLine3
  by_cases hz : dot3 (sub3 b a) (sub3 b a) = 0
  · rw [if_pos hz]
    have hba : b = a := eq_of_dot3_sub_eq_zero a b hz
    rw [hba, axpy3_zero_dir]
  · rw [if_neg hz]
    rw [distSq3_axpy_identity a (sub3 b a) p s (lineParam3 a b p)
      (lineParam3_proj a b p hz)]
    have hnn : 0 ≤ (s - lineParam3 a b p) ^ 2 * dot3 (sub3 b a) (sub3 b a) :=
      mul_nonneg (sq_nonneg _) (dot3_self_nonneg _)
    linarith

lemma closestPtOnLine3_on_line (a b p : Vec3) :
    ∃ s : ℚ, closestPtOnLine3 a b p = axpy3 s (sub3 b a) a := by
  unfold closestPtOnLine3
  by_cases hz : dot3 (sub3 b a) (sub3 b a) = 0
  · rw [if_pos hz]
    have hba : b = a := eq_of_dot3_sub_eq_zero a b hz
    rw [hba]
    exact ⟨0, (axpy3_zero_dir 0 a).symm⟩
  · rw [if_neg hz]
    exact ⟨lineParam3 a b p, rfl⟩

lemma clamp01_closest (t s : ℚ) (h0 : 0 ≤ s) (h1 : s ≤ 1) :
    (min (max t 0) 1 - t) ^ 2 ≤ (s - t) ^ 2 := by
  rcases le_total t 0 with h | h
  · rw [max_eq_right h, min_eq_left (by norm_num : (0 : ℚ) ≤ 1)]
    nlinarith
  · rcases le_total t 1 with h2 | h2
    · rw [max_eq_left h, min_eq_left h2]
      nlinarith
    · rw [max_eq_left h, min_eq_right h2]
      nlinarith

lemma closestPtOnSegment3_min (a b p : Vec3) (s : ℚ) (h0 : 0 ≤ s) (h1 : s ≤ 1) :
    distSq3 p (closestPtOnSegment3 a b p) ≤ distSq3 p (axpy3 s (sub3 b a) a) := by
  unfold closestPtOnSegment3
  by_cases hz : dot3 (sub3 b a) (sub3 b a) = 0
  · rw [if_pos hz]
    have hba : b = a := eq_of_dot3_sub_eq_zero a b hz
    rw [hba, axpy3_zero_dir]
  · rw [if_neg hz]
    rw [distSq3_axpy_identity a (sub3 b a) p s (lineParam3 a b p)
      (lineParam3_proj a b p hz),
      distSq3_axpy_identity a (sub3 b a) p (min (max (lineParam3 a b p) 0) 1)
      (lineParam3 a b p) (lineParam3_proj a b p hz)]
    have hpos : 0 ≤ dot3 (sub3 b a) (sub3 b a) := dot3_self_nonneg _
    have hcl := clamp01_closest (lineParam3 a b p) s h0 h1
    nlinarith

lemma closestPtOnSegment3_on_segment (a b p : Vec3) :
    ∃ s : ℚ, 0 ≤ s ∧ s ≤ 1 ∧ closestPtOnSegment3 a b p = axpy3 s (sub3 b a) a := by
  unfold closestPtOnSegment3
  by_cases hz : dot3 (sub3 b a) (sub3 b a) = 0
  · rw [if_pos hz]
    have hba : b = a := eq_of_dot3_sub_eq_zero a b hz
    rw [hba]
    exact ⟨0, le_rfl, by norm_num, (axpy3_zero_dir 0 a).symm⟩
  · rw [if_neg hz]
    refine ⟨min (max (lineParam3 a b p) 0) 1, ?_, min_le_right _ _, rfl⟩
    exact le_min (le_max_right _ _) (by norm_num)

/-- C3: the internal waypoint resolver leaves the raw waypoints unchanged
in state `none`; replaces `prev` by the vehicle position in state
`previousInfront`; replaces `prev` by the closest point on the segment
prev→target to the vehicle in state `targetBehind` (the point lies on the
segment and minimizes the distance among all segment points; when the
segment is degenerate it is `target`); replaces `prev` by the closest
point on the infinite line in state `offtrack` (the point lies on the
line and minimizes the distance among all line points); and in every
state `target` and `next` are unaltered. -/
theorem internal_waypoints_resolution (w : LocalWaypointSet) (pos : Vec3) :
    (_updateInternalWaypoints State.none w pos = w)
    ∧ (_updateInternalWaypoints State.previous_infront w pos).prev = pos
    ∧ (∃ s : ℚ, 0 ≤ s ∧ s ≤ 1 ∧
        (_updateInternalWaypoints State.target_behind w pos).prev =
          axpy3 s (sub3 w.target w.prev) w.prev)
    ∧ (∀ s : ℚ, 0 ≤ s → s ≤ 1 →
        distSq3 pos (_updateInternalWaypoints State.target_behind w pos).prev ≤
          distSq3 pos (axpy3 s (sub3 w.target w.prev) w.prev))
    ∧ (w.prev = w.target →
        (_updateInternalWaypoints State.target_behind w pos).prev = w.target)
    ∧ (∃ s : ℚ, (_updateInternalWaypoints State.offtrack w pos).prev =
        axpy3 s (sub3 w.target w.prev) w.prev)
    ∧ (∀ s : ℚ,
        distSq3 pos (_updateInternalWaypoints State.offtrack w pos).prev ≤
          distSq3 pos (axpy3 s (sub3 w.target w.prev) w.prev))
    ∧ (∀ st : State, (_updateInternalWaypoints st w pos).target = w.target
        ∧ (_updateInternalWaypoints st w pos).next = w.next) := by
  refine ⟨rfl, rfl, closestPtOnSegment3_on_segment w.prev w.target pos,
    fun s h0 h1 => closestPtOnSegment3_min w.prev w.target pos s h0 h1, ?_,
    closestPtOnLine3_on_line w.prev w.target pos,
    fun s => closestPtOnLine3_min w.prev w.target pos s, ?_⟩
  · intro h
    show closestPtOnSegment3 w.prev w.target pos = w.target
    have hz : dot3 (sub3 w.target w.prev) (sub3 w.target w.prev) = 0 := by
      rw [h]
      unfold dot3 sub3
      dsimp only
      ring
    unfold closestPtOnSegment3
    rw [if_pos hz]
  · intro st
    cases st <;> exact ⟨rfl, rfl⟩

/-- Witness for C3 at a concrete input: vehicle `(0,5,0)`, raw prev
`(0,0,0)`, target `(10,0,0)`; the resolved prev for `targetBehind` is at
least as close to the vehicle as the segment point at parameter 1/2. -/
theorem internal_waypoints_resolution_witness :
    distSq3 (0, 5, 0)
      (_updateInternalWaypoints State.target_behind
        ⟨(0, 0, 0), (0, 0, 0), (10, 0, 0), (10, 0, 0), WaypointType.position⟩
        (0, 5, 0)).prev ≤
      distSq3 (0, 5, 0) (axpy3 (1/2) (sub3 (10, 0, 0) (0, 0, 0)) (0, 0, 0)) :=
  (internal_waypoints_resolution
    ⟨(0, 0, 0), (0, 0, 0), (10, 0, 0), (10, 0, 0), WaypointType.position⟩
    (0, 5, 0)).2.2.2.1 (1/2) (by norm_num) (by norm_num)
